import Mathlib

/-!
Shallow embedding of src/src/Manager.cpp (the Geode installer's Manager).

The Windows branch of the platform-conditional code is modelled: it is the
only branch of the file that is fully implemented (the Apple branch of
installLoaderFor is a compile-time error and several Apple operations are
stubs).  Environment interactions (filesystem, HTTP transport, the Windows
registry key, the zip stream) are passed in explicitly:

* the filesystem is a pair of lists of existing directory and file paths;
* the persisted installer.json file is an optional parse result (absent,
  malformed, or a parsed JSON value);
* the HKLM GeodeSDK registry value is an optional string;
* a zip archive is the list of its entries, each carrying the flags the
  code queries on it (directory bit, readability of its data), and the
  success of wxFileOutputStream creation is a per-path boolean oracle;
* callbacks are modelled by presence flags plus the list of calls the code
  makes to them, in order.

JSON values and the nlohmann accessors used by the code (operator[] with a
string key, contains, is_null, get of a string, range-for iteration) are
modelled by the Json type and its helpers; exception texts of the library
are abbreviated, since only the code's own message prefixes matter here.
-/

/-- Characterwise test that the second list begins with the first. -/
def beginsWith : List Char → List Char → Bool
  | [], _ => true
  | _ :: _, [] => false
  | a :: as, b :: bs => a == b && beginsWith as bs

/-- Contiguous-sublist test on character lists. -/
def containsSub : List Char → List Char → Bool
  | needle, [] => beginsWith needle []
  | needle, c :: t => beginsWith needle (c :: t) || containsSub needle t

/-- Model of std::string::find(needle) != npos. -/
def strContains (hay needle : String) : Bool :=
  containsSub needle.data hay.data

/-- Lexicographic comparison of character lists by code point, modelling
the byte-wise less-than comparison C++ uses for paths in std::set. -/
def charListLt : List Char → List Char → Bool
  | _, [] => false
  | [], _ :: _ => true
  | a :: as, b :: bs =>
    if a.toNat < b.toNat then true
    else if b.toNat < a.toNat then false
    else charListLt as bs

/-- The strict ordering on path strings used by the Installation set. -/
def strLtB (a b : String) : Bool :=
  charListLt a.data b.data

/-- Path concatenation, modelling operator/ on ghc::filesystem::path. -/
def joinPath (a b : String) : String := a ++ "/" ++ b

/-- Parent directory of a path, modelling wxFileName::GetPath for a file. -/
def parentDir (p : String) : String :=
  String.intercalate "/" (p.splitOn "/").dropLast

/-- Model of nlohmann::json values. -/
inductive Json where
  | null
  | str (s : String)
  | num (n : Int)
  | boolean (b : Bool)
  | arr (xs : List Json)
  | obj (fields : List (String × Json))

/-- Lookup of a key in an object's field list; null when absent, modelling
that non-const operator[] inserts and returns a null element. -/
def lookupField : List (String × Json) → String → Json
  | [], _ => .null
  | f :: rest, k => if f.1 == k then f.2 else lookupField rest k

/-- Model of non-const operator[] with a string key: objects look the key
up, null converts to an object, any other type throws. -/
def jIndexStr : Json → String → Except String Json
  | .obj fields, k => .ok (lookupField fields k)
  | .null, _ => .ok .null
  | _, _ => .error "cannot use operator[] with a string argument"

/-- Total variant of the lookup, usable when the value is known to be an
object; null on anything else. -/
def jLookup : Json → String → Json
  | .obj fields, k => lookupField fields k
  | _, _ => .null

/-- Model of json::contains. -/
def jContains : Json → String → Bool
  | .obj fields, k => fields.any (fun f => f.1 == k)
  | _, _ => false

/-- Model of json::is_null. -/
def jIsNull : Json → Bool
  | .null => true
  | _ => false

/-- Model of get of std::string: throws unless the value is a string. -/
def getString : Json → Except String String
  | .str s => .ok s
  | _ => .error "type must be string"

/-- Range-for iteration over a json value: arrays yield their elements,
objects their values, null nothing, and any other primitive itself. -/
def jIter : Json → List Json
  | .arr xs => xs
  | .obj fields => fields.map (fun f => f.2)
  | .null => []
  | v => [v]

/-- One record of the Registry, from Manager.hpp.  Modelled from the spec
for the parts of the header not under src: field names and the ordering
key.  The spec says two Installations are the same if executablePath
matches and the ordering key for the set is the path. -/
structure Installation where
  m_path : String
  m_exe : String
deriving DecidableEq, Repr

/-- Model of std::set insertion into the sorted member list, keyed by
m_path: insertion does nothing when an element with an equivalent key is
already present. -/
def setInsert : List Installation → Installation → List Installation
  | [], i => [i]
  | x :: xs, i =>
    if strLtB i.m_path x.m_path then i :: x :: xs
    else if strLtB x.m_path i.m_path then x :: setInsert xs i
    else x :: xs

/-- Representation invariant of std::set of Installation: the member list
is strictly sorted by the ordering key. -/
abbrev SortedByPath (s : List Installation) : Prop :=
  List.Pairwise (fun a b => strLtB a.m_path b.m_path = true) s

/-- No two members of the list share an executable path. -/
abbrev PathsNodup (s : List Installation) : Prop :=
  List.Pairwise (fun a b => a.m_path ≠ b.m_path) s

/-- The mutable fields of the Manager singleton that loadData, saveData,
installLoaderFor and uninstallFrom touch. -/
structure ManagerState where
  m_dataDirectory : String
  m_sdkDirectory : String
  m_sdkInstalled : Bool
  m_dataLoaded : Bool
  m_installations : List Installation
deriving DecidableEq, Repr

/-- Placeholder for Manager::getDefaultDataDirectory, a platform lookup the
spec treats as an external collaborator. -/
def defaultDataDirectory : String := "C:/Users/user/AppData/Local/GeodeSDK"

/-- Placeholder for Manager::getDefaultSDKDirectory, a platform lookup the
spec treats as an external collaborator. -/
def defaultSDKDirectory : String := "C:/Program Files/GeodeSDK"

/-- Model of Manager::isFirstTime. -/
def isFirstTime (st : ManagerState) : Bool := !st.m_dataLoaded

/-- Environment of one loadData run: the optional HKLM GeodeSDK InstallInfo
registry value, and the installer.json file in the resulting data
directory: absent, or present with a parse outcome. -/
structure LoadInput where
  regPointer : Option String
  file : Option (Except String Json)

/-- The loop of Manager::loadData over json of installations: each record is
read with operator[] of path and exe and get of std::string, and inserted
into the set; the first record whose access throws aborts the loop with the
records inserted so far kept. -/
def loadInstallations : List Json → List Installation →
    List Installation × Except String Unit
  | [], acc => (acc, .ok ())
  | i :: rest, acc =>
    match jIndexStr i "path" with
    | .error e => (acc, .error e)
    | .ok pj =>
      match getString pj with
      | .error e => (acc, .error e)
      | .ok p =>
        match jIndexStr i "exe" with
        | .error e => (acc, .error e)
        | .ok ej =>
          match getString ej with
          | .error e => (acc, .error e)
          | .ok x => loadInstallations rest (setInsert acc ⟨p, x⟩)

/-- The sdk step of Manager::loadData: when the parsed json contains a
non-null sdk member, read it as a string (which may throw) and record the
sdk directory as installed. -/
def sdkLoadStep (st : ManagerState) (json : Json) : ManagerState × Except String Unit :=
  if jContains json "sdk" && !(jIsNull (jLookup json "sdk")) then
    match getString (jLookup json "sdk") with
    | .error e => (st, .error e)
    | .ok s => ({ st with m_sdkDirectory := s, m_sdkInstalled := true }, .ok ())
  else (st, .ok ())

/-- The body of the try block of Manager::loadData on a successfully
parsed json: the sdk step, then the installations loop; the first
exception is caught and surfaced as Err with the mutations made so far
kept. -/
def loadParsedJson (st1 : ManagerState) (json : Json) :
    ManagerState × Except String Unit :=
  match sdkLoadStep st1 json with
  | (st2, .error e) => (st2, .error ("Unable to load installation info: " ++ e))
  | (st2, .ok ()) =>
    match jIndexStr json "installations" with
    | .error e => (st2, .error ("Unable to load installation info: " ++ e))
    | .ok instsJson =>
      match loadInstallations (jIter instsJson) st2.m_installations with
      | (insts, .ok ()) => ({ st2 with m_installations := insts }, .ok ())
      | (insts, .error e) =>
        ({ st2 with m_installations := insts },
         .error ("Unable to load installation info: " ++ e))

/-- Model of Manager::loadData on a fresh Manager (Windows branch): resolve
the platform default directories, let the registry pointer override the
data directory and mark data as loaded, then read installer.json if it
exists; a parse or access exception is caught and surfaced as Err with the
mutations made so far kept. -/
def loadData (inp : LoadInput) : ManagerState × Except String Unit :=
  let st0 : ManagerState :=
    { m_dataDirectory := defaultDataDirectory
      m_sdkDirectory := defaultSDKDirectory
      m_sdkInstalled := false
      m_dataLoaded := false
      m_installations := [] }
  let st1 := match inp.regPointer with
    | some d => { st0 with m_dataDirectory := d, m_dataLoaded := true }
    | none => st0
  match inp.file with
  | none => (st1, .ok ())
  | some (.error e) => (st1, .error ("Unable to load installation info: " ++ e))
  | some (.ok json) => loadParsedJson st1 json

/-- The json object Manager::saveData serializes: the sdk path only when
installed, and the installation set in iteration order of the std::set. -/
def savedJson (st : ManagerState) : Json :=
  .obj ((if st.m_sdkInstalled then [("sdk", Json.str st.m_sdkDirectory)] else []) ++
    [("installations",
      Json.arr (st.m_installations.map
        (fun i => Json.obj [("path", Json.str i.m_path), ("exe", Json.str i.m_exe)])))])

/-- Environment of one saveData run: whether the data directory exists or
can be created, whether the file stream opens, and whether the registry key
steps succeed. -/
structure SaveEnv where
  dataDirExists : Bool
  createDirsOk : Bool
  fileOpenOk : Bool
  regCreateOk : Bool
  regSetOk : Bool
deriving DecidableEq, Repr

/-- Model of Manager::saveData (Windows branch): directory creation, file
write of the serialized object, then the registry key write; the first
component is the file content written, if the file write was reached and
its stream opened. -/
def saveData (env : SaveEnv) (st : ManagerState) : Option Json × Except String Unit :=
  if !env.dataDirExists && !env.createDirsOk then
    (none, .error ("Unable to create GeodeSDK directory at " ++ st.m_dataDirectory))
  else if !env.fileOpenOk then
    (none, .error ("Can\x27t save file at " ++ joinPath st.m_dataDirectory "installer.json"))
  else if !env.regCreateOk then
    (some (savedJson st),
     .error "Unable to create Registry Key - the installer wont be able to uninstall Geode!")
  else if !env.regSetOk then
    (some (savedJson st),
     .error "Unable to save Registry Key - the installer wont be able to uninstall Geode!")
  else (some (savedJson st), .ok ())

/-- The filesystem as the code observes it: the sets of existing directory
paths and existing file paths. -/
structure FS where
  dirs : List String
  files : List String
deriving DecidableEq, Repr

/-- Model of ghc::filesystem::exists. -/
def pathExists (fs : FS) (p : String) : Bool :=
  decide (p ∈ fs.dirs) || decide (p ∈ fs.files)

/-- Model of wxDirExists. -/
def dirExistsB (fs : FS) (d : String) : Bool :=
  decide (d ∈ fs.dirs)

/-- Model of wxFileName::Mkdir on the observable existence level. -/
def mkDir (fs : FS) (d : String) : FS :=
  { fs with dirs := if d ∈ fs.dirs then fs.dirs else fs.dirs ++ [d] }

/-- Creation or truncation of a file by wxFileOutputStream, on the
observable existence level. -/
def addFile (fs : FS) (p : String) : FS :=
  { fs with files := if p ∈ fs.files then fs.files else fs.files ++ [p] }

/-- One wxZipEntry as the loop of Manager::unzipTo queries it: its name,
its directory bit, and whether its data can be streamed at that point. -/
structure ZipEntry where
  name : String
  isDir : Bool
  canRead : Bool
deriving DecidableEq, Repr

/-- Environment of an extraction: whether the zip file stream and the zip
input stream open, and a per-path oracle for whether an output file stream
is Ok after creation. -/
structure UnzipEnv where
  zipOpenOk : Bool
  zipFormatOk : Bool
  writeOk : String → Bool

/-- Destination path of an entry: targetLocation / entry name. -/
def entryPath (target : String) (e : ZipEntry) : String :=
  joinPath target e.name

/-- The directory wxFileName::GetPath yields for an entry: the path itself
for a directory entry, its parent for a file entry. -/
def entryDirPath (target : String) (e : ZipEntry) : String :=
  if e.isDir = true then entryPath target e else parentDir (entryPath target e)

/-- The wxDirExists check followed by Mkdir whose return value the code
does not check. -/
def ensureDir (fs : FS) (d : String) : FS :=
  if dirExistsB fs d = true then fs else mkDir fs d

/-- The entry loop of Manager::unzipTo: the directory of the entry is
ensured, directory entries are skipped, a non-streamable entry aborts with
the read error naming the entry, a failed output stream aborts with the
create error naming the path, and otherwise the file is written and the
loop continues. -/
def unzipEntries (env : UnzipEnv) (target : String) :
    List ZipEntry → FS → FS × Except String Unit
  | [], fs => (fs, .ok ())
  | e :: rest, fs =>
    let fs1 := ensureDir fs (entryDirPath target e)
    if e.isDir = true then unzipEntries env target rest fs1
    else if e.canRead = false then
      (fs1, .error ("Unable to read the zip entry \"" ++ e.name ++ "\""))
    else if env.writeOk (entryPath target e) = false then
      (fs1, .error ("Unable to create file \"" ++ entryPath target e ++ "\""))
    else unzipEntries env target rest (addFile fs1 (entryPath target e))

/-- Model of Manager::unzipTo. -/
def unzipTo (env : UnzipEnv) (entries : List ZipEntry) (target : String)
    (fs : FS) : FS × Except String Unit :=
  if env.zipOpenOk = false then (fs, .error "Unable to open zip")
  else if env.zipFormatOk = false then (fs, .error "Unable to read zip")
  else unzipEntries env target entries fs

/-- Model of Manager::installLoaderFor (Windows branch): the game
executable path is passed as its parent directory and filename; the
archive is unzipped into the directory and on success the Installation
record is inserted into the set. -/
def installLoaderFor (st : ManagerState) (env : UnzipEnv) (fs : FS)
    (gdExeDir gdExeName : String) (entries : List ZipEntry) :
    ManagerState × FS × Except String Installation :=
  let inst : Installation := { m_path := gdExeDir, m_exe := gdExeName }
  match unzipTo env entries inst.m_path fs with
  | (fs1, .error e) => (st, fs1, .error ("Loader unzip error: " ++ e))
  | (fs1, .ok ()) =>
    ({ st with m_installations := setInsert st.m_installations inst }, fs1, .ok inst)

/-- Whether a path equals a root or lies underneath it, the set of paths
ghc::filesystem::remove_all removes. -/
def isUnder (root p : String) : Bool :=
  p == root || beginsWith (root ++ "/").data p.data

/-- Model of ghc::filesystem::remove_all. -/
def removeAllSubtree (fs : FS) (root : String) : FS :=
  { dirs := fs.dirs.filter (fun d => !(isUnder root d))
    files := fs.files.filter (fun f => !(isUnder root f)) }

/-- Model of ghc::filesystem::remove of a single name. -/
def removeOne (fs : FS) (p : String) : FS :=
  { dirs := fs.dirs.filter (fun d => !(d == p))
    files := fs.files.filter (fun f => !(f == p)) }

/-- The filesystem effect of Manager::uninstallFrom: remove the geode
subtree and the two shim DLLs from the installation directory when they
exist; absent ones are skipped. -/
def uninstallFilesStep (fs : FS) (p : String) : FS :=
  let fs1 := if pathExists fs (joinPath p "geode") then
    removeAllSubtree fs (joinPath p "geode") else fs
  let fs2 := if pathExists fs1 (joinPath p "XInput9_1_0.dll") then
    removeOne fs1 (joinPath p "XInput9_1_0.dll") else fs1
  if pathExists fs2 (joinPath p "Geode.dll") then
    removeOne fs2 (joinPath p "Geode.dll") else fs2

/-- Model of Manager::uninstallFrom (Windows branch): remove the geode
subtree and the two shim DLLs from the installation directory when they
exist, and return Ok; the Manager state is not touched. -/
def uninstallFrom (st : ManagerState) (fs : FS) (inst : Installation) :
    ManagerState × FS × Except String Unit :=
  (st, uninstallFilesStep fs inst.m_path, .ok ())

/-- Modelled from the spec for the OtherModFlags enum of Manager.hpp, which
is not under src: the spec says the check returns a bitset of flags, so the
flags carry distinct bits, with OMF None empty. -/
def OMF_None : Nat := 0

/-- Flag bit for the loader's own or generic mod artifacts. -/
def OMF_Some : Nat := 1

/-- Flag bit for MegaHack v6. -/
def OMF_MHv6 : Nat := 2

/-- Flag bit for MegaHack v7. -/
def OMF_MHv7 : Nat := 4

/-- Flag bit for GDHM. -/
def OMF_GDHM : Nat := 8

/-- Model of Manager::doesDirectoryContainOtherMods (Windows branch). -/
def doesDirectoryContainOtherMods (fs : FS) (path : String) : Nat :=
  let f1 := if pathExists fs (joinPath path "absoluteldr.dll") then OMF_MHv6 else 0
  let f2 := if pathExists fs (joinPath path "hackproldr.dll") then OMF_MHv7 else 0
  let f3 := if pathExists fs (joinPath path "ToastedMarshmellow.dll") then OMF_GDHM else 0
  let f4 := if pathExists fs (joinPath path "Geode.dll") ||
      pathExists fs (joinPath path "quickldr.dll") ||
      pathExists fs (joinPath path "GDDLLLoader.dll") ||
      pathExists fs (joinPath path "ModLdr.dll") ||
      pathExists fs (joinPath path "minhook.dll") ||
      pathExists fs (joinPath path "XInput9_1_0.dll") then OMF_Some else 0
  OMF_None ||| f1 ||| f2 ||| f3 ||| f4

/-- One release asset of the feed metadata. -/
structure Asset where
  name : String
  browser_download_url : String
deriving DecidableEq, Repr

/-- PLATFORM ASSET IDENTIFIER for the Windows build. -/
def platformAssetIdentifier : String := "win"

/-- PLATFORM NAME for the Windows build. -/
def platformName : String := "Windows"

/-- One call the code makes to a caller-supplied callback, or a download
request it issues. -/
inductive CbEvent where
  | errorCall (msg : String)
  | progressCall (label : String) (percent : Nat)
  | finishCall
  | downloadRequest (url : String)
deriving DecidableEq, Repr

/-- The asset loop shared by Manager::downloadLoader and
Manager::downloadAPI: the first asset whose name contains the identifier
substring wins and its url is requested; if none matches, the error
callback is invoked with the given message when the caller supplied one. -/
def assetLoop (identifier errMsg : String) (hasErrorCb : Bool) :
    List Asset → List CbEvent
  | [] => if hasErrorCb then [.errorCall errMsg] else []
  | a :: rest =>
    if strContains a.name identifier then [.downloadRequest a.browser_download_url]
    else assetLoop identifier errMsg hasErrorCb rest

/-- The asset-selection step of Manager::downloadLoader. -/
def downloadLoaderLoop (hasErrorCb : Bool) (assets : List Asset) : List CbEvent :=
  assetLoop platformAssetIdentifier
    ("No release asset for " ++ platformName ++ " found") hasErrorCb assets

/-- The asset-selection step of Manager::downloadAPI. -/
def downloadAPILoop (hasErrorCb : Bool) (assets : List Asset) : List CbEvent :=
  assetLoop ".geode" "No .geode file release asset found" hasErrorCb assets

/-- One outcome of a web request as dispatched by the state-event handler
in Manager::webRequest.  The State Active branch is not included: its
percentage is computed in IEEE double arithmetic, which this embedding
does not model. -/
inductive WebOutcome where
  | createFailed
  | completed (responseOk : Bool) (status : Nat)
  | idle
  | unauthorized
  | transportFailed
  | cancelled
deriving DecidableEq, Repr

/-- The calls Manager::webRequest makes to the caller's callbacks for one
outcome, given which callbacks the caller supplied. -/
def webRequestEvents (hasError hasProgress hasFinish : Bool) :
    WebOutcome → List CbEvent
  | .createFailed => if hasError then [.errorCall "Unable to create web request"] else []
  | .completed ok status =>
    if !ok then (if hasError then [.errorCall "Web request returned not OK"] else [])
    else if status ≠ 200 then
      (if hasError then [.errorCall ("Web request returned " ++ toString status)] else [])
    else if hasFinish then [.finishCall] else []
  | .idle => if hasProgress then [.progressCall "Waiting" 0] else []
  | .unauthorized => if hasError then [.errorCall "Unauthorized to do web request"] else []
  | .transportFailed => if hasError then [.errorCall "Web request failed"] else []
  | .cancelled => if hasError then [.errorCall "Web request cancelled"] else []

/-- The failure outcomes of Manager::webRequest: request creation failure,
response not Ok, status other than 200, unauthorized, transport failure,
cancellation. -/
def isFailureOutcome : WebOutcome → Bool
  | .createFailed => true
  | .completed ok status => !ok || decide (status ≠ 200)
  | .idle => false
  | .unauthorized => true
  | .transportFailed => true
  | .cancelled => true

/-- An entry the extraction loop passes without aborting: a directory, or a
file whose data streams and whose output file can be created. -/
def entryOkB (env : UnzipEnv) (target : String) (e : ZipEntry) : Bool :=
  e.isDir || (e.canRead && env.writeOk (entryPath target e))

/-- An entry the extraction loop aborts on: a file entry whose data cannot
be streamed or whose output file cannot be created. -/
def entryFailsB (env : UnzipEnv) (target : String) (e : ZipEntry) : Bool :=
  !e.isDir && (!e.canRead || !env.writeOk (entryPath target e))

/-- The error unzipTo reports for a failing entry, in the order the code
checks: the read error naming the entry first, the create error naming the
destination path otherwise. -/
def entryFailMsg (target : String) (e : ZipEntry) : String :=
  if e.canRead = false then "Unable to read the zip entry \"" ++ e.name ++ "\""
  else "Unable to create file \"" ++ entryPath target e ++ "\""

lemma charListLt_irrefl : ∀ l : List Char, charListLt l l = false
  | [] => rfl
  | a :: as => by
    simp [charListLt, lt_irrefl, charListLt_irrefl as]

lemma charListLt_asymm : ∀ l1 l2 : List Char,
    charListLt l1 l2 = true → charListLt l2 l1 = false
  | _, [], h => by simp [charListLt] at h
  | [], _ :: _, _ => rfl
  | a :: as, b :: bs, h => by
    simp only [charListLt] at h ⊢
    rcases Nat.lt_trichotomy a.toNat b.toNat with hab | hab | hab
    · have h1 : ¬ b.toNat < a.toNat := by omega
      simp [h1, hab]
    · have h1 : ¬ a.toNat < b.toNat := by omega
      have h2 : ¬ b.toNat < a.toNat := by omega
      simp only [if_neg h1, if_neg h2] at h ⊢
      exact charListLt_asymm as bs h
    · have h1 : ¬ a.toNat < b.toNat := by omega
      simp [h1, hab] at h

lemma charListLt_trans : ∀ l1 l2 l3 : List Char,
    charListLt l1 l2 = true → charListLt l2 l3 = true → charListLt l1 l3 = true
  | _, _, [], _, h2 => by simp [charListLt] at h2
  | _, [], _ :: _, h1, _ => by simp [charListLt] at h1
  | [], _ :: _, _ :: _, _, _ => rfl
  | a :: as, b :: bs, c :: cs, h1, h2 => by
    simp only [charListLt] at h1 h2 ⊢
    by_cases hab : a.toNat < b.toNat <;> by_cases hbc : b.toNat < c.toNat
    · simp [show a.toNat < c.toNat by omega]
    · by_cases hcb : c.toNat < b.toNat
      · simp [hbc, hcb] at h2
      · have hbceq : b.toNat = c.toNat := by omega
        simp [show a.toNat < c.toNat by omega]
    · by_cases hba : b.toNat < a.toNat
      · simp [hab, hba] at h1
      · have habeq : a.toNat = b.toNat := by omega
        simp [show a.toNat < c.toNat by omega]
    · by_cases hba : b.toNat < a.toNat
      · simp [hab, hba] at h1
      · by_cases hcb : c.toNat < b.toNat
        · simp [hbc, hcb] at h2
        · have habeq : a.toNat = b.toNat := by omega
          have hbceq : b.toNat = c.toNat := by omega
          have h1' : charListLt as bs = true := by
            simpa only [if_neg hab, if_neg hba] using h1
          have h2' : charListLt bs cs = true := by
            simpa only [if_neg hbc, if_neg hcb] using h2
          have h3 : ¬ a.toNat < c.toNat := by omega
          have h4 : ¬ c.toNat < a.toNat := by omega
          simp only [if_neg h3, if_neg h4]
          exact charListLt_trans as bs cs h1' h2'

lemma strLtB_irrefl (a : String) : strLtB a a = false :=
  charListLt_irrefl a.data

lemma strLtB_asymm {a b : String} (h : strLtB a b = true) : strLtB b a = false :=
  charListLt_asymm a.data b.data h

lemma strLtB_trans {a b c : String} (h1 : strLtB a b = true)
    (h2 : strLtB b c = true) : strLtB a c = true :=
  charListLt_trans a.data b.data c.data h1 h2

lemma strLtB_ne {a b : String} (h : strLtB a b = true) : a ≠ b := by
  intro heq
  rw [heq, strLtB_irrefl] at h
  cases h

lemma mem_setInsert {s : List Installation} {i a : Installation}
    (h : a ∈ setInsert s i) : a ∈ s ∨ a = i := by
  induction s with
  | nil =>
    simp only [setInsert, List.mem_singleton] at h
    exact Or.inr h
  | cons x xs ih =>
    simp only [setInsert] at h
    by_cases h1 : strLtB i.m_path x.m_path = true
    · simp only [if_pos h1, List.mem_cons] at h
      rcases h with rfl | rfl | h
      · exact Or.inr rfl
      · exact Or.inl (List.mem_cons_self a xs)
      · exact Or.inl (List.mem_cons_of_mem x h)
    · by_cases h2 : strLtB x.m_path i.m_path = true
      · simp only [if_neg h1, if_pos h2, List.mem_cons] at h
        rcases h with rfl | h
        · exact Or.inl (List.mem_cons_self a xs)
        · rcases ih h with h | h
          · exact Or.inl (List.mem_cons_of_mem x h)
          · exact Or.inr h
      · simp only [if_neg h1, if_neg h2] at h
        exact Or.inl h

lemma setInsert_sorted {s : List Installation} (i : Installation)
    (hs : SortedByPath s) : SortedByPath (setInsert s i) := by
  induction s with
  | nil => simp [setInsert]
  | cons x xs ih =>
    rcases List.pairwise_cons.mp hs with ⟨hx, hxs⟩
    by_cases h1 : strLtB i.m_path x.m_path = true
    · have hgoal : SortedByPath (i :: x :: xs) := by
        refine List.pairwise_cons.mpr ⟨?_, hs⟩
        intro b hb
        rcases List.mem_cons.mp hb with rfl | hb
        · exact h1
        · exact strLtB_trans h1 (hx b hb)
      simpa only [setInsert, if_pos h1] using hgoal
    · by_cases h2 : strLtB x.m_path i.m_path = true
      · have hsub := ih hxs
        have hgoal : SortedByPath (x :: setInsert xs i) := by
          refine List.pairwise_cons.mpr ⟨?_, hsub⟩
          intro b hb
          rcases mem_setInsert hb with hb | rfl
          · exact hx b hb
          · exact h2
        simpa only [setInsert, if_neg h1, if_pos h2] using hgoal
      · simpa only [setInsert, if_neg h1, if_neg h2] using hs

lemma sorted_pathsNodup {s : List Installation} (hs : SortedByPath s) :
    PathsNodup s :=
  hs.imp (fun h => strLtB_ne h)

lemma setInsert_append_of_lt : ∀ (acc : List Installation) (i : Installation),
    (∀ a ∈ acc, strLtB a.m_path i.m_path = true) → setInsert acc i = acc ++ [i]
  | [], _, _ => rfl
  | x :: xs, i, h => by
    have hx : strLtB x.m_path i.m_path = true := h x (List.mem_cons_self x xs)
    have h1 : ¬ strLtB i.m_path x.m_path = true := by
      rw [strLtB_asymm hx]
      simp
    simp only [setInsert, if_neg h1, if_pos hx, List.cons_append, List.cons.injEq,
      true_and]
    exact setInsert_append_of_lt xs i (fun a ha => h a (List.mem_cons_of_mem x ha))

lemma foldl_setInsert_sorted : ∀ (l acc : List Installation),
    SortedByPath (acc ++ l) → List.foldl setInsert acc l = acc ++ l
  | [], acc, _ => by simp
  | x :: l, acc, h => by
    have hlt : ∀ a ∈ acc, strLtB a.m_path x.m_path = true := by
      intro a ha
      exact (List.pairwise_append.mp h).2.2 a ha x (List.mem_cons_self x l)
    rw [List.foldl_cons, setInsert_append_of_lt acc x hlt]
    have h' : SortedByPath ((acc ++ [x]) ++ l) := by
      simpa only [List.append_assoc, List.singleton_append] using h
    rw [foldl_setInsert_sorted l (acc ++ [x]) h']
    simp

lemma setInsert_eq_of_mem : ∀ (s : List Installation) (i x : Installation),
    SortedByPath s → x ∈ s → x.m_path = i.m_path → setInsert s i = s
  | [], _, _, _, hx, _ => absurd hx (List.not_mem_nil _)
  | y :: ys, i, x, hs, hx, heq => by
    rcases List.pairwise_cons.mp hs with ⟨hy, hys⟩
    rcases List.mem_cons.mp hx with rfl | hx'
    · have h1 : ¬ strLtB i.m_path x.m_path = true := by
        rw [heq, strLtB_irrefl]
        simp
      have h2 : ¬ strLtB x.m_path i.m_path = true := by
        rw [← heq, strLtB_irrefl]
        simp
      simp only [setInsert, if_neg h1, if_neg h2]
    · have hyx : strLtB y.m_path i.m_path = true := heq ▸ hy x hx'
      have h1 : ¬ strLtB i.m_path y.m_path = true := by
        rw [strLtB_asymm hyx]
        simp
      simp only [setInsert, if_neg h1, if_pos hyx, List.cons.injEq, true_and]
      exact setInsert_eq_of_mem ys i x hys hx' heq


lemma loadInstallations_sorted : ∀ (l : List Json) (acc : List Installation),
    SortedByPath acc → SortedByPath (loadInstallations l acc).1
  | [], _, h => h
  | i :: rest, acc, h => by
    cases hpj : jIndexStr i "path" with
    | error e => simpa only [loadInstallations, hpj] using h
    | ok pj =>
      cases hp : getString pj with
      | error e => simpa only [loadInstallations, hpj, hp] using h
      | ok p =>
        cases hej : jIndexStr i "exe" with
        | error e => simpa only [loadInstallations, hpj, hp, hej] using h
        | ok ej =>
          cases hx : getString ej with
          | error e => simpa only [loadInstallations, hpj, hp, hej, hx] using h
          | ok x =>
            simpa only [loadInstallations, hpj, hp, hej, hx] using
              loadInstallations_sorted rest (setInsert acc ⟨p, x⟩)
                (setInsert_sorted _ h)

lemma sdkLoadStep_fields (st : ManagerState) (json : Json) :
    (sdkLoadStep st json).1.m_installations = st.m_installations ∧
    (sdkLoadStep st json).1.m_dataDirectory = st.m_dataDirectory ∧
    (sdkLoadStep st json).1.m_dataLoaded = st.m_dataLoaded := by
  unfold sdkLoadStep
  split
  · cases getString (jLookup json "sdk") <;> exact ⟨rfl, rfl, rfl⟩
  · exact ⟨rfl, rfl, rfl⟩


lemma loadParsedJson_sorted (st1 : ManagerState) (json : Json)
    (h : SortedByPath st1.m_installations) :
    SortedByPath (loadParsedJson st1 json).1.m_installations := by
  rcases hsdk : sdkLoadStep st1 json with ⟨st2, r2⟩
  have hst2 : st2.m_installations = st1.m_installations := by
    have hfields := (sdkLoadStep_fields st1 json).1
    rw [hsdk] at hfields
    exact hfields
  cases r2 with
  | error e =>
    simp only [loadParsedJson, hsdk]
    simpa only [hst2] using h
  | ok u =>
    cases u
    cases hidx : jIndexStr json "installations" with
    | error e =>
      simp only [loadParsedJson, hsdk, hidx]
      simpa only [hst2] using h
    | ok instsJson =>
      rcases hload : loadInstallations (jIter instsJson) st2.m_installations
        with ⟨insts, r3⟩
      have hins : SortedByPath insts := by
        have hall := loadInstallations_sorted (jIter instsJson) st2.m_installations
          (by simpa only [hst2] using h)
        rw [hload] at hall
        exact hall
      cases r3 with
      | error e =>
        simp only [loadParsedJson, hsdk, hidx, hload]
        exact hins
      | ok u =>
        cases u
        simp only [loadParsedJson, hsdk, hidx, hload]
        exact hins

lemma loadData_sorted (inp : LoadInput) :
    SortedByPath (loadData inp).1.m_installations := by
  obtain ⟨rp, file⟩ := inp
  cases file with
  | none => cases rp <;> simp [loadData]
  | some pr =>
    cases pr with
    | error e => cases rp <;> simp [loadData]
    | ok json =>
      cases rp with
      | none => exact loadParsedJson_sorted _ json (by simp)
      | some d => exact loadParsedJson_sorted _ json (by simp)

lemma loadInstallations_map : ∀ (l acc : List Installation),
    loadInstallations
      (l.map (fun i => Json.obj [("path", Json.str i.m_path), ("exe", Json.str i.m_exe)]))
      acc = (List.foldl setInsert acc l, .ok ())
  | [], _ => rfl
  | i :: l, acc => by
    have hpe : (("path" : String) == "exe") = false := by decide
    simp only [List.map_cons, loadInstallations, jIndexStr, lookupField,
      beq_self_eq_true, if_true, hpe, Bool.false_eq_true, if_false, getString,
      List.foldl_cons]
    exact loadInstallations_map l (setInsert acc ⟨i.m_path, i.m_exe⟩)

lemma sdkLoadStep_savedJson (st1 st : ManagerState) :
    sdkLoadStep st1 (savedJson st) =
      (if st.m_sdkInstalled = true then
        ({ st1 with m_sdkDirectory := st.m_sdkDirectory, m_sdkInstalled := true },
         Except.ok ())
       else (st1, Except.ok ())) := by
  have hks : (("sdk" : String) == "sdk") = true := by decide
  have hki : (("installations" : String) == "sdk") = false := by decide
  cases hsd : st.m_sdkInstalled with
  | true =>
    simp [savedJson, hsd, sdkLoadStep, jContains, jLookup, lookupField, jIsNull,
      getString, hks, hki]
  | false =>
    simp [savedJson, hsd, sdkLoadStep, jContains, jLookup, lookupField, jIsNull,
      getString, hks, hki]

lemma jIndexStr_savedJson (st : ManagerState) :
    jIndexStr (savedJson st) "installations" =
      .ok (.arr (st.m_installations.map
        (fun i => Json.obj [("path", Json.str i.m_path), ("exe", Json.str i.m_exe)]))) := by
  have hsi : (("sdk" : String) == "installations") = false := by decide
  have hii : (("installations" : String) == "installations") = true := by decide
  cases hsd : st.m_sdkInstalled with
  | true => simp [savedJson, hsd, jIndexStr, lookupField, hsi, hii]
  | false => simp [savedJson, hsd, jIndexStr, lookupField, hsi, hii]

lemma loadParsedJson_savedJson (st1 st : ManagerState)
    (h1 : st1.m_installations = []) (hs : SortedByPath st.m_installations) :
    loadParsedJson st1 (savedJson st) =
      (if st.m_sdkInstalled = true then
        { st1 with m_sdkDirectory := st.m_sdkDirectory, m_sdkInstalled := true,
                   m_installations := st.m_installations }
       else { st1 with m_installations := st.m_installations }, Except.ok ()) := by
  have hfold : List.foldl setInsert [] st.m_installations = st.m_installations := by
    have h := foldl_setInsert_sorted st.m_installations [] (by simpa using hs)
    simpa using h
  cases hsd : st.m_sdkInstalled with
  | true =>
    have hsdk := sdkLoadStep_savedJson st1 st
    rw [hsd, if_pos rfl] at hsdk
    have hload := loadInstallations_map st.m_installations []
    simp only [loadParsedJson, hsdk, jIndexStr_savedJson, jIter, h1, hload, hfold,
      hsd, if_pos]
  | false =>
    have hsdk := sdkLoadStep_savedJson st1 st
    rw [hsd] at hsdk
    simp only [Bool.false_eq_true, if_false] at hsdk
    have hload := loadInstallations_map st.m_installations []
    simp only [loadParsedJson, hsdk, jIndexStr_savedJson, jIter, h1, hload, hfold,
      hsd, Bool.false_eq_true, if_false]

/-- C6: saving any valid registry state and loading it back on a fresh
Manager yields the same state: the same sdk path when sdkInstalled was
true (sdkInstalled stays false and the sdk directory stays the platform
default when it was unset), and an installation set equal to the one that
was saved. -/
theorem save_load_roundtrip (st : ManagerState) (hs : SortedByPath st.m_installations) :
    saveData ⟨true, true, true, true, true⟩ st = (some (savedJson st), Except.ok ()) ∧
    loadData ⟨some st.m_dataDirectory, some (Except.ok (savedJson st))⟩ =
      ({ m_dataDirectory := st.m_dataDirectory
         m_sdkDirectory := if st.m_sdkInstalled = true then st.m_sdkDirectory
                           else defaultSDKDirectory
         m_sdkInstalled := st.m_sdkInstalled
         m_dataLoaded := true
         m_installations := st.m_installations }, Except.ok ()) := by
  refine ⟨rfl, ?_⟩
  have hld : loadData ⟨some st.m_dataDirectory, some (Except.ok (savedJson st))⟩ =
      loadParsedJson
        { m_dataDirectory := st.m_dataDirectory
          m_sdkDirectory := defaultSDKDirectory
          m_sdkInstalled := false
          m_dataLoaded := true
          m_installations := [] } (savedJson st) := rfl
  rw [hld, loadParsedJson_savedJson _ st rfl hs]
  cases hsd : st.m_sdkInstalled <;> simp [hsd]

/-- A parsed state file whose second installation record lacks the required
exe field, while the first record and the sdk field are well formed. -/
def c1BadRecordJson : Json :=
  .obj [("sdk", .str "C:/SDK"),
        ("installations",
         .arr [.obj [("path", .str "C:/GD"), ("exe", .str "GeometryDash.exe")],
               .obj [("path", .str "C:/GD2")]])]

/-- C1 counterexample: on a parsed state file whose second record is
missing the required exe field, loadData returns an error, yet the first
record is already inserted in the installation set and the sdk fields are
already applied, so the failed load does leave a partially populated set. -/
theorem loadData_partial_on_bad_record :
    (loadData ⟨none, some (.ok c1BadRecordJson)⟩).1.m_installations =
      [⟨"C:/GD", "GeometryDash.exe"⟩] ∧
    (loadData ⟨none, some (.ok c1BadRecordJson)⟩).1.m_sdkInstalled = true ∧
    (loadData ⟨none, some (.ok c1BadRecordJson)⟩).1.m_sdkDirectory = "C:/SDK" ∧
    (loadData ⟨none, some (.ok c1BadRecordJson)⟩).2 =
      .error "Unable to load installation info: type must be string" :=
  ⟨by decide, by decide, by decide, rfl⟩

/-- C1 amended: on a state file whose content is malformed JSON, loadData
returns an error result and leaves the installation set empty and the sdk
fields untouched; but when the file parses and an individual record fails,
the records read before it and a parsed sdk field remain applied. -/
theorem loadData_malformed_leaves_empty (rp : Option String) (e : String) :
    (loadData ⟨rp, some (.error e)⟩).1.m_installations = [] ∧
    (loadData ⟨rp, some (.error e)⟩).1.m_sdkInstalled = false ∧
    (loadData ⟨rp, some (.error e)⟩).2 =
      .error ("Unable to load installation info: " ++ e) := by
  cases rp <;> exact ⟨rfl, rfl, rfl⟩

/-- C3 counterexample: when the registry pointer exists but no state file
does, loadData yields an empty installation set and sdkInstalled false,
yet isFirstTime is false, because the code marks data as loaded from the
pointer alone. -/
theorem loadData_pointer_without_file :
    (loadData ⟨some "D:/GeodeData", none⟩).2 = .ok () ∧
    (loadData ⟨some "D:/GeodeData", none⟩).1.m_installations = [] ∧
    (loadData ⟨some "D:/GeodeData", none⟩).1.m_sdkInstalled = false ∧
    isFirstTime (loadData ⟨some "D:/GeodeData", none⟩).1 = false :=
  ⟨rfl, rfl, rfl, rfl⟩

/-- C3 amended: when neither the OS registry pointer nor the state file
exists, loadData succeeds with an empty installation set, sdkInstalled
false, and isFirstTime true. -/
theorem loadData_fresh_state :
    (loadData ⟨none, none⟩).2 = .ok () ∧
    (loadData ⟨none, none⟩).1.m_installations = [] ∧
    (loadData ⟨none, none⟩).1.m_sdkInstalled = false ∧
    isFirstTime (loadData ⟨none, none⟩).1 = true :=
  ⟨rfl, rfl, rfl, rfl⟩

lemma installLoaderFor_sorted (st : ManagerState) (env : UnzipEnv) (fs : FS)
    (gdExeDir gdExeName : String) (entries : List ZipEntry)
    (hs : SortedByPath st.m_installations) :
    SortedByPath (installLoaderFor st env fs gdExeDir gdExeName entries).1.m_installations := by
  unfold installLoaderFor
  rcases hz : unzipTo env entries gdExeDir fs with ⟨fs1, r⟩
  cases r with
  | error e => simp only [hz]; exact hs
  | ok u => cases u; simp only [hz]; exact setInsert_sorted _ hs

/-- C2 amended: the Registry never holds two Installations with the same
executablePath: any state loadData produces, and any sorted state
installLoaderFor updates, has pairwise distinct paths; but inserting an
Installation whose path equals an existing member's path leaves the set
unchanged, keeping the existing record with its old executableName rather
than replacing it. -/
theorem registry_paths_unique :
    (∀ inp : LoadInput, PathsNodup (loadData inp).1.m_installations) ∧
    (∀ (st : ManagerState) (env : UnzipEnv) (fs : FS) (gdExeDir gdExeName : String)
       (entries : List ZipEntry), SortedByPath st.m_installations →
       PathsNodup (installLoaderFor st env fs gdExeDir gdExeName entries).1.m_installations) ∧
    (∀ (s : List Installation) (i x : Installation), SortedByPath s → x ∈ s →
       x.m_path = i.m_path → setInsert s i = s) :=
  ⟨fun inp => sorted_pathsNodup (loadData_sorted inp),
   fun st env fs d n entries hs =>
     sorted_pathsNodup (installLoaderFor_sorted st env fs d n entries hs),
   fun s i x hs hx heq => setInsert_eq_of_mem s i x hs hx heq⟩

/-- C2 witness: the uniqueness statement evaluated on a fresh load, and the
keep-the-existing-member statement at a concrete one-element set. -/
theorem registry_paths_unique_witness :
    PathsNodup (loadData ⟨none, none⟩).1.m_installations ∧
    setInsert [⟨"C:/GD", "old.exe"⟩] ⟨"C:/GD", "new.exe"⟩ = [⟨"C:/GD", "old.exe"⟩] :=
  ⟨registry_paths_unique.1 ⟨none, none⟩,
   registry_paths_unique.2.2 [⟨"C:/GD", "old.exe"⟩] ⟨"C:/GD", "new.exe"⟩
     ⟨"C:/GD", "old.exe"⟩ (by simp) (by simp) rfl⟩

/-- C2 counterexample: installing the loader for an executable whose
directory already has an Installation record succeeds, but the record
keeps the previously stored executableName instead of being replaced by
the newly inserted one. -/
theorem install_keeps_existing_record :
    (installLoaderFor
      ⟨"D:/data", "S:/sdk", false, true, [⟨"C:/GD", "GeometryDash.exe"⟩]⟩
      ⟨true, true, fun _ => true⟩ ⟨[], []⟩ "C:/GD" "NewName.exe" []).2.2 =
        .ok ⟨"C:/GD", "NewName.exe"⟩ ∧
    (installLoaderFor
      ⟨"D:/data", "S:/sdk", false, true, [⟨"C:/GD", "GeometryDash.exe"⟩]⟩
      ⟨true, true, fun _ => true⟩ ⟨[], []⟩ "C:/GD" "NewName.exe" []).1.m_installations =
        [⟨"C:/GD", "GeometryDash.exe"⟩] ∧
    (installLoaderFor
      ⟨"D:/data", "S:/sdk", false, true, [⟨"C:/GD", "GeometryDash.exe"⟩]⟩
      ⟨true, true, fun _ => true⟩ ⟨[], []⟩ "C:/GD" "NewName.exe" []).1.m_installations ≠
        [⟨"C:/GD", "NewName.exe"⟩] :=
  ⟨rfl, by decide, by decide⟩

lemma ensureDir_files (fs : FS) (d : String) : (ensureDir fs d).files = fs.files := by
  unfold ensureDir
  split <;> rfl

lemma mem_addFile_self (fs : FS) (p : String) : p ∈ (addFile fs p).files := by
  unfold addFile
  by_cases h : p ∈ fs.files <;> simp [h]

lemma mem_addFile_of_mem {fs : FS} {x : String} (p : String) (h : x ∈ fs.files) :
    x ∈ (addFile fs p).files := by
  unfold addFile
  by_cases hp : p ∈ fs.files <;> simp [hp, h]

lemma unzipEntries_files_mono (env : UnzipEnv) (target : String) :
    ∀ (l : List ZipEntry) (fs : FS) (x : String), x ∈ fs.files →
      x ∈ (unzipEntries env target l fs).1.files
  | [], _, _, hx => hx
  | e :: rest, fs, x, hx => by
    have hx1 : x ∈ (ensureDir fs (entryDirPath target e)).files := by
      rw [ensureDir_files]
      exact hx
    by_cases hdir : e.isDir = true
    · simpa only [unzipEntries, if_pos hdir] using
        unzipEntries_files_mono env target rest _ x hx1
    · by_cases hread : e.canRead = false
      · simpa only [unzipEntries, if_neg hdir, if_pos hread] using hx1
      · by_cases hw : env.writeOk (entryPath target e) = false
        · simpa only [unzipEntries, if_neg hdir, if_neg hread, if_pos hw] using hx1
        · simpa only [unzipEntries, if_neg hdir, if_neg hread, if_neg hw] using
            unzipEntries_files_mono env target rest _ x (mem_addFile_of_mem _ hx1)

lemma unzipEntries_ok_files (env : UnzipEnv) (target : String) :
    ∀ (l : List ZipEntry) (fs : FS),
      (unzipEntries env target l fs).2 = .ok () →
      ∀ e ∈ l, e.isDir = false →
        entryPath target e ∈ (unzipEntries env target l fs).1.files
  | [], _, _, e, he, _ => absurd he (List.not_mem_nil e)
  | e0 :: rest, fs, hok, e, he, hed => by
    by_cases hdir : e0.isDir = true
    · rcases List.mem_cons.mp he with rfl | he'
      · rw [hdir] at hed
        cases hed
      · simp only [unzipEntries, if_pos hdir] at hok ⊢
        exact unzipEntries_ok_files env target rest _ hok e he' hed
    · by_cases hread : e0.canRead = false
      · simp only [unzipEntries, if_neg hdir, if_pos hread] at hok
        exact absurd hok (by simp)
      · by_cases hw : env.writeOk (entryPath target e0) = false
        · simp only [unzipEntries, if_neg hdir, if_neg hread, if_pos hw] at hok
          exact absurd hok (by simp)
        · simp only [unzipEntries, if_neg hdir, if_neg hread, if_neg hw] at hok ⊢
          rcases List.mem_cons.mp he with rfl | he'
          · exact unzipEntries_files_mono env target rest _ _ (mem_addFile_self _ _)
          · exact unzipEntries_ok_files env target rest _ hok e he' hed

lemma mem_mkDir_self (fs : FS) (d : String) : d ∈ (mkDir fs d).dirs := by
  unfold mkDir
  by_cases h : d ∈ fs.dirs <;> simp [h]

lemma mem_mkDir_of_mem {fs : FS} {x : String} (d : String) (h : x ∈ fs.dirs) :
    x ∈ (mkDir fs d).dirs := by
  unfold mkDir
  by_cases hd : d ∈ fs.dirs <;> simp [hd, h]

lemma ensureDir_mem_self (fs : FS) (d : String) : d ∈ (ensureDir fs d).dirs := by
  unfold ensureDir
  by_cases h : dirExistsB fs d = true
  · rw [if_pos h]
    simpa [dirExistsB] using h
  · rw [if_neg h]
    exact mem_mkDir_self fs d

lemma ensureDir_mem_of_mem {fs : FS} {x : String} (d : String) (h : x ∈ fs.dirs) :
    x ∈ (ensureDir fs d).dirs := by
  unfold ensureDir
  by_cases hd : dirExistsB fs d = true
  · rw [if_pos hd]
    exact h
  · rw [if_neg hd]
    exact mem_mkDir_of_mem d h

lemma unzipEntries_dirs_mono (env : UnzipEnv) (target : String) :
    ∀ (l : List ZipEntry) (fs : FS) (x : String), x ∈ fs.dirs →
      x ∈ (unzipEntries env target l fs).1.dirs
  | [], _, _, hx => hx
  | e :: rest, fs, x, hx => by
    have hx1 : x ∈ (ensureDir fs (entryDirPath target e)).dirs :=
      ensureDir_mem_of_mem _ hx
    by_cases hdir : e.isDir = true
    · simpa only [unzipEntries, if_pos hdir] using
        unzipEntries_dirs_mono env target rest _ x hx1
    · by_cases hread : e.canRead = false
      · simpa only [unzipEntries, if_neg hdir, if_pos hread] using hx1
      · by_cases hw : env.writeOk (entryPath target e) = false
        · simpa only [unzipEntries, if_neg hdir, if_neg hread, if_pos hw] using hx1
        · have hx2 : x ∈ (addFile (ensureDir fs (entryDirPath target e))
              (entryPath target e)).dirs := hx1
          simpa only [unzipEntries, if_neg hdir, if_neg hread, if_neg hw] using
            unzipEntries_dirs_mono env target rest _ x hx2

lemma unzipEntries_abort (env : UnzipEnv) (target : String) :
    ∀ (pre : List ZipEntry) (post : List ZipEntry) (e : ZipEntry) (fs : FS),
      (∀ a ∈ pre, entryOkB env target a = true) →
      entryFailsB env target e = true →
      unzipEntries env target (pre ++ e :: post) fs =
        unzipEntries env target (pre ++ [e]) fs ∧
      (unzipEntries env target (pre ++ e :: post) fs).2 =
        .error (entryFailMsg target e) ∧
      (∀ a ∈ pre, a.isDir = false →
        entryPath target a ∈ (unzipEntries env target (pre ++ e :: post) fs).1.files) ∧
      (∀ a ∈ pre,
        entryDirPath target a ∈ (unzipEntries env target (pre ++ e :: post) fs).1.dirs)
  | [], post, e, fs, _, hfail => by
    have hf : e.isDir = false ∧ (e.canRead = false ∨ env.writeOk (entryPath target e) = false) := by
      simpa [entryFailsB, Bool.and_eq_true, Bool.or_eq_true, Bool.not_eq_true'] using hfail
    have hdir : ¬ e.isDir = true := by simp [hf.1]
    by_cases hread : e.canRead = false
    · refine ⟨?_, ?_, ?_, ?_⟩
      · simp only [List.nil_append, unzipEntries, if_neg hdir, if_pos hread]
      · simp only [List.nil_append, unzipEntries, if_neg hdir, if_pos hread,
          entryFailMsg, if_pos hread]
      · intro a ha
        exact absurd ha (List.not_mem_nil a)
      · intro a ha
        exact absurd ha (List.not_mem_nil a)
    · have hw : env.writeOk (entryPath target e) = false := by
        rcases hf.2 with h | h
        · exact absurd h hread
        · exact h
      refine ⟨?_, ?_, ?_, ?_⟩
      · simp only [List.nil_append, unzipEntries, if_neg hdir, if_neg hread, if_pos hw]
      · simp only [List.nil_append, unzipEntries, if_neg hdir, if_neg hread, if_pos hw,
          entryFailMsg, if_neg hread]
      · intro a ha
        exact absurd ha (List.not_mem_nil a)
      · intro a ha
        exact absurd ha (List.not_mem_nil a)
  | a :: pre, post, e, fs, hpre, hfail => by
    have ha : entryOkB env target a = true := hpre a (List.mem_cons_self a pre)
    have hpre' : ∀ b ∈ pre, entryOkB env target b = true :=
      fun b hb => hpre b (List.mem_cons_of_mem a hb)
    by_cases hdir : a.isDir = true
    · have ih := unzipEntries_abort env target pre post e
        (ensureDir fs (entryDirPath target a)) hpre' hfail
      refine ⟨?_, ?_, ?_, ?_⟩
      · simpa only [List.cons_append, unzipEntries, if_pos hdir] using ih.1
      · simpa only [List.cons_append, unzipEntries, if_pos hdir] using ih.2.1
      · intro b hb hbd
        rcases List.mem_cons.mp hb with rfl | hb2
        · rw [hdir] at hbd
          cases hbd
        · simpa only [List.cons_append, unzipEntries, if_pos hdir] using
            ih.2.2.1 b hb2 hbd
      · intro b hb
        rcases List.mem_cons.mp hb with rfl | hb2
        · simpa only [List.cons_append, unzipEntries, if_pos hdir] using
            unzipEntries_dirs_mono env target (pre ++ e :: post) _ _
              (ensureDir_mem_self fs _)
        · simpa only [List.cons_append, unzipEntries, if_pos hdir] using
            ih.2.2.2 b hb2
    · have hok : a.canRead = true ∧ env.writeOk (entryPath target a) = true := by
        have hh := ha
        simp only [entryOkB, Bool.or_eq_true, Bool.and_eq_true] at hh
        rcases hh with h | h
        · exact absurd h hdir
        · exact h
      have hread : ¬ a.canRead = false := by simp [hok.1]
      have hw : ¬ env.writeOk (entryPath target a) = false := by simp [hok.2]
      have ih := unzipEntries_abort env target pre post e
        (addFile (ensureDir fs (entryDirPath target a)) (entryPath target a)) hpre' hfail
      refine ⟨?_, ?_, ?_, ?_⟩
      · simpa only [List.cons_append, unzipEntries, if_neg hdir, if_neg hread,
          if_neg hw] using ih.1
      · simpa only [List.cons_append, unzipEntries, if_neg hdir, if_neg hread,
          if_neg hw] using ih.2.1
      · intro b hb hbd
        rcases List.mem_cons.mp hb with rfl | hb2
        · simpa only [List.cons_append, unzipEntries, if_neg hdir, if_neg hread,
            if_neg hw] using
            unzipEntries_files_mono env target (pre ++ e :: post) _ _
              (mem_addFile_self _ _)
        · simpa only [List.cons_append, unzipEntries, if_neg hdir, if_neg hread,
            if_neg hw] using ih.2.2.1 b hb2 hbd
      · intro b hb
        rcases List.mem_cons.mp hb with rfl | hb2
        · have hmem : entryDirPath target b ∈ (addFile (ensureDir fs
              (entryDirPath target b)) (entryPath target b)).dirs :=
            ensureDir_mem_self fs _
          simpa only [List.cons_append, unzipEntries, if_neg hdir, if_neg hread,
            if_neg hw] using
            unzipEntries_dirs_mono env target (pre ++ e :: post) _ _ hmem
        · simpa only [List.cons_append, unzipEntries, if_neg hdir, if_neg hread,
            if_neg hw] using ih.2.2.2 b hb2

/-- C7: extraction processes entries in archive order; at the first entry
that is not streamable or whose destination file cannot be created, it
returns the corresponding error immediately, the entries after it are
never processed, and every file and directory materialized for the earlier
entries is still present in the resulting filesystem. -/
theorem unzip_aborts_at_first_failing_entry (env : UnzipEnv) (target : String)
    (pre post : List ZipEntry) (e : ZipEntry) (fs : FS)
    (hopen : env.zipOpenOk = true) (hfmt : env.zipFormatOk = true)
    (hpre : ∀ a ∈ pre, entryOkB env target a = true)
    (hfail : entryFailsB env target e = true) :
    unzipTo env (pre ++ e :: post) target fs = unzipTo env (pre ++ [e]) target fs ∧
    (unzipTo env (pre ++ e :: post) target fs).2 = .error (entryFailMsg target e) ∧
    (∀ a ∈ pre, a.isDir = false →
      entryPath target a ∈ (unzipTo env (pre ++ e :: post) target fs).1.files) ∧
    (∀ a ∈ pre,
      entryDirPath target a ∈ (unzipTo env (pre ++ e :: post) target fs).1.dirs) := by
  have habort := unzipEntries_abort env target pre post e fs hpre hfail
  have hopen' : ¬ env.zipOpenOk = false := by simp [hopen]
  have hfmt' : ¬ env.zipFormatOk = false := by simp [hfmt]
  refine ⟨?_, ?_, ?_, ?_⟩
  · simpa only [unzipTo, if_neg hopen', if_neg hfmt'] using habort.1
  · simpa only [unzipTo, if_neg hopen', if_neg hfmt'] using habort.2.1
  · intro a ha had
    simpa only [unzipTo, if_neg hopen', if_neg hfmt'] using habort.2.2.1 a ha had
  · intro a ha
    simpa only [unzipTo, if_neg hopen', if_neg hfmt'] using habort.2.2.2 a ha

/-- C7 witness: a concrete archive whose third entry is unreadable; the
run is cut short with the read error naming that entry, equals the run
without the never-reached fourth entry, and the file of the second entry
is on disk. -/
theorem unzip_aborts_witness :
    unzipTo ⟨true, true, fun _ => true⟩
        ([⟨"geode", true, true⟩, ⟨"Geode.dll", false, true⟩] ++
          ⟨"bad.bin", false, false⟩ :: [⟨"later.txt", false, true⟩]) "C:/GD"
        ⟨[], []⟩ =
      unzipTo ⟨true, true, fun _ => true⟩
        ([⟨"geode", true, true⟩, ⟨"Geode.dll", false, true⟩] ++ [⟨"bad.bin", false, false⟩])
        "C:/GD" ⟨[], []⟩ ∧
    (unzipTo ⟨true, true, fun _ => true⟩
        ([⟨"geode", true, true⟩, ⟨"Geode.dll", false, true⟩] ++
          ⟨"bad.bin", false, false⟩ :: [⟨"later.txt", false, true⟩]) "C:/GD"
        ⟨[], []⟩).2 = .error "Unable to read the zip entry \"bad.bin\"" ∧
    entryPath "C:/GD" ⟨"Geode.dll", false, true⟩ ∈
      (unzipTo ⟨true, true, fun _ => true⟩
        ([⟨"geode", true, true⟩, ⟨"Geode.dll", false, true⟩] ++
          ⟨"bad.bin", false, false⟩ :: [⟨"later.txt", false, true⟩]) "C:/GD"
        ⟨[], []⟩).1.files ∧
    entryDirPath "C:/GD" ⟨"geode", true, true⟩ ∈
      (unzipTo ⟨true, true, fun _ => true⟩
        ([⟨"geode", true, true⟩, ⟨"Geode.dll", false, true⟩] ++
          ⟨"bad.bin", false, false⟩ :: [⟨"later.txt", false, true⟩]) "C:/GD"
        ⟨[], []⟩).1.dirs := by
  have h := unzip_aborts_at_first_failing_entry ⟨true, true, fun _ => true⟩ "C:/GD"
    [⟨"geode", true, true⟩, ⟨"Geode.dll", false, true⟩] [⟨"later.txt", false, true⟩]
    ⟨"bad.bin", false, false⟩ ⟨[], []⟩ rfl rfl (by decide) (by decide)
  exact ⟨h.1, h.2.1, h.2.2.1 ⟨"Geode.dll", false, true⟩ (by simp) rfl,
    h.2.2.2 ⟨"geode", true, true⟩ (by simp)⟩

lemma pathExists_removeAllSubtree_self (fs : FS) (r : String) :
    pathExists (removeAllSubtree fs r) r = false := by
  have hu : isUnder r r = true := by simp [isUnder]
  simp [pathExists, removeAllSubtree, List.mem_filter, hu]

lemma pathExists_removeOne_self (fs : FS) (p : String) :
    pathExists (removeOne fs p) p = false := by
  simp [pathExists, removeOne, List.mem_filter]

lemma pathExists_removeAllSubtree_mono {fs : FS} {q : String} (r : String)
    (h : pathExists fs q = false) : pathExists (removeAllSubtree fs r) q = false := by
  simp only [pathExists, removeAllSubtree, List.mem_filter, Bool.or_eq_false_iff,
    decide_eq_false_iff_not] at h ⊢
  exact ⟨fun hc => h.1 hc.1, fun hc => h.2 hc.1⟩

lemma pathExists_removeOne_mono {fs : FS} {q : String} (p : String)
    (h : pathExists fs q = false) : pathExists (removeOne fs p) q = false := by
  simp only [pathExists, removeOne, List.mem_filter, Bool.or_eq_false_iff,
    decide_eq_false_iff_not] at h ⊢
  exact ⟨fun hc => h.1 hc.1, fun hc => h.2 hc.1⟩

lemma pathExists_condRemoveAll_self (fs : FS) (r : String) :
    pathExists (if pathExists fs r then removeAllSubtree fs r else fs) r = false := by
  by_cases h : pathExists fs r = true
  · simp [h, pathExists_removeAllSubtree_self]
  · simp only [Bool.not_eq_true] at h
    simp [h]

lemma pathExists_condRemoveOne_self (fs : FS) (p : String) :
    pathExists (if pathExists fs p then removeOne fs p else fs) p = false := by
  by_cases h : pathExists fs p = true
  · simp [h, pathExists_removeOne_self]
  · simp only [Bool.not_eq_true] at h
    simp [h]

lemma pathExists_condRemoveAll_mono {fs : FS} {q : String} (r : String)
    (h : pathExists fs q = false) :
    pathExists (if pathExists fs r then removeAllSubtree fs r else fs) q = false := by
  by_cases hr : pathExists fs r = true
  · simp [hr, pathExists_removeAllSubtree_mono r h]
  · simp only [Bool.not_eq_true] at hr
    simp [hr, h]

lemma pathExists_condRemoveOne_mono {fs : FS} {q : String} (p : String)
    (h : pathExists fs q = false) :
    pathExists (if pathExists fs p then removeOne fs p else fs) q = false := by
  by_cases hp : pathExists fs p = true
  · simp [hp, pathExists_removeOne_mono p h]
  · simp only [Bool.not_eq_true] at hp
    simp [hp, h]

lemma uninstallFilesStep_markers_absent (fs : FS) (p : String) :
    pathExists (uninstallFilesStep fs p) (joinPath p "geode") = false ∧
    pathExists (uninstallFilesStep fs p) (joinPath p "XInput9_1_0.dll") = false ∧
    pathExists (uninstallFilesStep fs p) (joinPath p "Geode.dll") = false := by
  unfold uninstallFilesStep
  refine ⟨?_, ?_, ?_⟩
  · exact pathExists_condRemoveOne_mono _ (pathExists_condRemoveOne_mono _
      (pathExists_condRemoveAll_self fs _))
  · exact pathExists_condRemoveOne_mono _ (pathExists_condRemoveOne_self _ _)
  · exact pathExists_condRemoveOne_self _ _

/-- C8: uninstallFrom succeeds on any filesystem, including one already
missing some or all of the loader files; it never touches the Manager
state (in particular the Installation records stay); and running it twice
gives exactly the same result as running it once. -/
theorem uninstallFrom_idempotent (st : ManagerState) (fs : FS) (inst : Installation) :
    (uninstallFrom st fs inst).2.2 = .ok () ∧
    (uninstallFrom st fs inst).1 = st ∧
    uninstallFrom st (uninstallFrom st fs inst).2.1 inst = uninstallFrom st fs inst := by
  refine ⟨rfl, rfl, ?_⟩
  have hm := uninstallFilesStep_markers_absent fs inst.m_path
  have hstep : uninstallFilesStep (uninstallFilesStep fs inst.m_path) inst.m_path =
      uninstallFilesStep fs inst.m_path := by
    set F := uninstallFilesStep fs inst.m_path with hF
    unfold uninstallFilesStep
    simp only [hm.1, hm.2.1, hm.2.2, Bool.false_eq_true, if_false]
  show (st, uninstallFilesStep (uninstallFilesStep fs inst.m_path) inst.m_path,
      Except.ok ()) = (st, uninstallFilesStep fs inst.m_path, Except.ok ())
  rw [hstep]

/-- Whether installLoaderFor returned Ok. -/
def isOkInstall : Except String Installation → Bool
  | .ok _ => true
  | .error _ => false

lemma omf_zero_iff (fs : FS) (path : String) :
    doesDirectoryContainOtherMods fs path = OMF_None ↔
      pathExists fs (joinPath path "absoluteldr.dll") = false ∧
      pathExists fs (joinPath path "hackproldr.dll") = false ∧
      pathExists fs (joinPath path "ToastedMarshmellow.dll") = false ∧
      (pathExists fs (joinPath path "Geode.dll") ||
       pathExists fs (joinPath path "quickldr.dll") ||
       pathExists fs (joinPath path "GDDLLLoader.dll") ||
       pathExists fs (joinPath path "ModLdr.dll") ||
       pathExists fs (joinPath path "minhook.dll") ||
       pathExists fs (joinPath path "XInput9_1_0.dll")) = false := by
  unfold doesDirectoryContainOtherMods
  cases h1 : pathExists fs (joinPath path "absoluteldr.dll") <;>
    cases h2 : pathExists fs (joinPath path "hackproldr.dll") <;>
    cases h3 : pathExists fs (joinPath path "ToastedMarshmellow.dll") <;>
    cases h4 : (pathExists fs (joinPath path "Geode.dll") ||
      pathExists fs (joinPath path "quickldr.dll") ||
      pathExists fs (joinPath path "GDDLLLoader.dll") ||
      pathExists fs (joinPath path "ModLdr.dll") ||
      pathExists fs (joinPath path "minhook.dll") ||
      pathExists fs (joinPath path "XInput9_1_0.dll")) <;>
    decide

lemma omf_some_of_marker (fs : FS) (path : String)
    (h : pathExists fs (joinPath path "Geode.dll") = true ∨
      pathExists fs (joinPath path "XInput9_1_0.dll") = true) :
    doesDirectoryContainOtherMods fs path ≠ OMF_None := by
  have hc4 : (pathExists fs (joinPath path "Geode.dll") ||
      pathExists fs (joinPath path "quickldr.dll") ||
      pathExists fs (joinPath path "GDDLLLoader.dll") ||
      pathExists fs (joinPath path "ModLdr.dll") ||
      pathExists fs (joinPath path "minhook.dll") ||
      pathExists fs (joinPath path "XInput9_1_0.dll")) = true := by
    rcases h with h | h <;> simp [h]
  unfold doesDirectoryContainOtherMods
  simp only [hc4]
  cases h1 : pathExists fs (joinPath path "absoluteldr.dll") <;>
    cases h2 : pathExists fs (joinPath path "hackproldr.dll") <;>
    cases h3 : pathExists fs (joinPath path "ToastedMarshmellow.dll") <;>
    decide

lemma install_marker_detected (st : ManagerState) (env : UnzipEnv) (fs : FS)
    (gdExeDir gdExeName : String) (entries : List ZipEntry)
    (hok : isOkInstall (installLoaderFor st env fs gdExeDir gdExeName entries).2.2 = true)
    (hex : ∃ z ∈ entries, z.isDir = false ∧
      (z.name = "Geode.dll" ∨ z.name = "XInput9_1_0.dll")) :
    doesDirectoryContainOtherMods
      (installLoaderFor st env fs gdExeDir gdExeName entries).2.1 gdExeDir ≠ OMF_None := by
  rcases hz : unzipTo env entries gdExeDir fs with ⟨fs1, r⟩
  simp only [installLoaderFor, hz] at hok ⊢
  cases r with
  | error e => cases hok
  | ok u =>
    cases u
    by_cases ho : env.zipOpenOk = false
    · rw [unzipTo, if_pos ho] at hz
      have hcontra := congrArg Prod.snd hz
      simp at hcontra
    · by_cases hf : env.zipFormatOk = false
      · rw [unzipTo, if_neg ho, if_pos hf] at hz
        have hcontra := congrArg Prod.snd hz
        simp at hcontra
      · rw [unzipTo, if_neg ho, if_neg hf] at hz
        obtain ⟨z, hzmem, hzdir, hzname⟩ := hex
        have hfile := unzipEntries_ok_files env gdExeDir entries fs
          (by rw [hz]) z hzmem hzdir
        rw [hz] at hfile
        have hpe : pathExists fs1 (entryPath gdExeDir z) = true := by
          simp only [pathExists, Bool.or_eq_true, decide_eq_true_eq]
          exact Or.inr hfile
        rcases hzname with h | h
        · refine omf_some_of_marker fs1 gdExeDir (Or.inl ?_)
          rw [show joinPath gdExeDir "Geode.dll" = entryPath gdExeDir z by
            rw [entryPath, h]]
          exact hpe
        · refine omf_some_of_marker fs1 gdExeDir (Or.inr ?_)
          rw [show joinPath gdExeDir "XInput9_1_0.dll" = entryPath gdExeDir z by
            rw [entryPath, h]]
          exact hpe

/-- C9: the other-mod check returns the empty flag set exactly when none of
the nine marker files is present in the directory; the presence of the
loader's own artifacts Geode.dll or XInput9_1_0.dll makes the flag set
non-empty; and after a successful installLoaderFor whose archive carried
one of those artifacts as a file entry, the check on the installation
directory reports a non-empty flag set. -/
theorem otherMods_detection :
    (∀ (fs : FS) (path : String),
      doesDirectoryContainOtherMods fs path = OMF_None ↔
        pathExists fs (joinPath path "absoluteldr.dll") = false ∧
        pathExists fs (joinPath path "hackproldr.dll") = false ∧
        pathExists fs (joinPath path "ToastedMarshmellow.dll") = false ∧
        (pathExists fs (joinPath path "Geode.dll") ||
         pathExists fs (joinPath path "quickldr.dll") ||
         pathExists fs (joinPath path "GDDLLLoader.dll") ||
         pathExists fs (joinPath path "ModLdr.dll") ||
         pathExists fs (joinPath path "minhook.dll") ||
         pathExists fs (joinPath path "XInput9_1_0.dll")) = false) ∧
    (∀ (fs : FS) (path : String),
      pathExists fs (joinPath path "Geode.dll") = true ∨
        pathExists fs (joinPath path "XInput9_1_0.dll") = true →
      doesDirectoryContainOtherMods fs path ≠ OMF_None) ∧
    (∀ (st : ManagerState) (env : UnzipEnv) (fs : FS) (gdExeDir gdExeName : String)
        (entries : List ZipEntry),
      isOkInstall (installLoaderFor st env fs gdExeDir gdExeName entries).2.2 = true →
      (∃ z ∈ entries, z.isDir = false ∧
        (z.name = "Geode.dll" ∨ z.name = "XInput9_1_0.dll")) →
      doesDirectoryContainOtherMods
        (installLoaderFor st env fs gdExeDir gdExeName entries).2.1 gdExeDir ≠ OMF_None) :=
  ⟨omf_zero_iff,
   omf_some_of_marker,
   install_marker_detected⟩

/-- C9 witness: the check is empty on an empty directory, non-empty when
Geode.dll is present, and non-empty right after a concrete successful
install whose archive contained Geode.dll. -/
theorem otherMods_detection_witness :
    (doesDirectoryContainOtherMods ⟨[], []⟩ "C:/GD" = OMF_None) ∧
    doesDirectoryContainOtherMods ⟨[], ["C:/GD/Geode.dll"]⟩ "C:/GD" ≠ OMF_None ∧
    doesDirectoryContainOtherMods
      (installLoaderFor ⟨"D:/data", "S:/sdk", false, true, []⟩
        ⟨true, true, fun _ => true⟩ ⟨[], []⟩ "C:/GD" "GeometryDash.exe"
        [⟨"Geode.dll", false, true⟩]).2.1 "C:/GD" ≠ OMF_None :=
  ⟨(otherMods_detection.1 ⟨[], []⟩ "C:/GD").mpr (by decide),
   otherMods_detection.2.1 ⟨[], ["C:/GD/Geode.dll"]⟩ "C:/GD" (Or.inl (by decide)),
   otherMods_detection.2.2 ⟨"D:/data", "S:/sdk", false, true, []⟩
     ⟨true, true, fun _ => true⟩ ⟨[], []⟩ "C:/GD" "GeometryDash.exe"
     [⟨"Geode.dll", false, true⟩] (by decide)
     ⟨⟨"Geode.dll", false, true⟩, by simp, rfl, Or.inl rfl⟩⟩

lemma assetLoop_first_match (identifier errMsg : String) (hasErr : Bool) :
    ∀ (pre : List Asset) (a : Asset) (post : List Asset),
      (∀ b ∈ pre, strContains b.name identifier = false) →
      strContains a.name identifier = true →
      assetLoop identifier errMsg hasErr (pre ++ a :: post) =
        [.downloadRequest a.browser_download_url]
  | [], a, post, _, ha => by
    simp only [List.nil_append, assetLoop, ha, if_pos]
  | b :: pre, a, post, hpre, ha => by
    have hb : strContains b.name identifier = false :=
      hpre b (List.mem_cons_self b pre)
    have hbn : ¬ strContains b.name identifier = true := by simp [hb]
    simp only [List.cons_append, assetLoop, if_neg hbn]
    exact assetLoop_first_match identifier errMsg hasErr pre a post
      (fun c hc => hpre c (List.mem_cons_of_mem b hc)) ha

lemma assetLoop_no_match (identifier errMsg : String) (hasErr : Bool) :
    ∀ (assets : List Asset),
      (∀ b ∈ assets, strContains b.name identifier = false) →
      assetLoop identifier errMsg hasErr assets =
        if hasErr then [.errorCall errMsg] else []
  | [], _ => rfl
  | b :: assets, h => by
    have hb : ¬ strContains b.name identifier = true := by
      simp [h b (List.mem_cons_self b assets)]
    simp only [assetLoop, if_neg hb]
    exact assetLoop_no_match identifier errMsg hasErr assets
      (fun c hc => h c (List.mem_cons_of_mem b hc))

/-- C4: the loader and API fetchers pick the first asset in feed order
whose name contains the platform identifier (loader) or the .geode marker
(API) and issue exactly one download request for its url; when no asset
matches, they invoke the supplied error callback with the platform
specific no-matching-asset message, and no download request is issued. -/
theorem asset_selection (hasErr : Bool) :
    (∀ (pre : List Asset) (a : Asset) (post : List Asset),
      (∀ b ∈ pre, strContains b.name platformAssetIdentifier = false) →
      strContains a.name platformAssetIdentifier = true →
      downloadLoaderLoop hasErr (pre ++ a :: post) =
        [.downloadRequest a.browser_download_url]) ∧
    (∀ assets : List Asset,
      (∀ b ∈ assets, strContains b.name platformAssetIdentifier = false) →
      downloadLoaderLoop true assets =
        [.errorCall ("No release asset for " ++ platformName ++ " found")] ∧
      ∀ u, CbEvent.downloadRequest u ∉ downloadLoaderLoop hasErr assets) ∧
    (∀ (pre : List Asset) (a : Asset) (post : List Asset),
      (∀ b ∈ pre, strContains b.name ".geode" = false) →
      strContains a.name ".geode" = true →
      downloadAPILoop hasErr (pre ++ a :: post) =
        [.downloadRequest a.browser_download_url]) ∧
    (∀ assets : List Asset,
      (∀ b ∈ assets, strContains b.name ".geode" = false) →
      downloadAPILoop true assets = [.errorCall "No .geode file release asset found"] ∧
      ∀ u, CbEvent.downloadRequest u ∉ downloadAPILoop hasErr assets) := by
  refine ⟨?_, ?_, ?_, ?_⟩
  · intro pre a post hpre ha
    exact assetLoop_first_match _ _ hasErr pre a post hpre ha
  · intro assets h
    constructor
    · rw [downloadLoaderLoop, assetLoop_no_match _ _ true assets h]
      simp
    · intro u
      rw [downloadLoaderLoop, assetLoop_no_match _ _ hasErr assets h]
      cases hasErr <;> simp
  · intro pre a post hpre ha
    exact assetLoop_first_match _ _ hasErr pre a post hpre ha
  · intro assets h
    constructor
    · rw [downloadAPILoop, assetLoop_no_match _ _ true assets h]
      simp
    · intro u
      rw [downloadAPILoop, assetLoop_no_match _ _ hasErr assets h]
      cases hasErr <;> simp

/-- C4 witness: on the spec's example feed the loader fetcher picks the
win asset in feed order; on a feed without a win asset it reports the
no-matching-asset message and requests nothing. -/
theorem asset_selection_witness :
    downloadLoaderLoop true
        [⟨"Installer-win.zip", "url-win"⟩, ⟨"Installer-mac.zip", "url-mac"⟩] =
      [.downloadRequest "url-win"] ∧
    downloadLoaderLoop true [⟨"Installer-mac.zip", "url-mac"⟩] =
      [.errorCall "No release asset for Windows found"] ∧
    ∀ u, CbEvent.downloadRequest u ∉ downloadLoaderLoop true [⟨"Installer-mac.zip", "url-mac"⟩] := by
  refine ⟨?_, ?_, ?_⟩
  · have h := (asset_selection true).1 [] ⟨"Installer-win.zip", "url-win"⟩
      [⟨"Installer-mac.zip", "url-mac"⟩] (by intro b hb; cases hb) (by decide)
    simpa using h
  · have h := ((asset_selection true).2.1 [⟨"Installer-mac.zip", "url-mac"⟩]
      (by intro b hb; simp only [List.mem_singleton] at hb; subst hb; decide)).1
    simpa using h
  · exact ((asset_selection true).2.1 [⟨"Installer-mac.zip", "url-mac"⟩]
      (by intro b hb; simp only [List.mem_singleton] at hb; subst hb; decide)).2

/-- C10: for every failure outcome of webRequest, when the caller supplied
no error callback, no callback of any kind is invoked for that outcome:
the list of calls the handler makes is empty. -/
theorem null_error_callback_silent (o : WebOutcome) (hasProgress hasFinish : Bool)
    (h : isFailureOutcome o = true) :
    webRequestEvents false hasProgress hasFinish o = [] := by
  cases o with
  | createFailed => rfl
  | completed ok status =>
    cases ok with
    | false => simp [webRequestEvents]
    | true =>
      have hst : status ≠ 200 := by
        simpa [isFailureOutcome] using h
      simp [webRequestEvents, hst]
  | idle => cases h
  | unauthorized => rfl
  | transportFailed => rfl
  | cancelled => rfl

/-- C10 witness: the silent-drop theorem evaluated at concrete failure
outcomes with the other callbacks supplied. -/
theorem null_error_callback_silent_witness :
    webRequestEvents false true true .cancelled = [] ∧
    webRequestEvents false true true (.completed true 404) = [] ∧
    webRequestEvents false true true (.completed false 200) = [] ∧
    webRequestEvents false true true .createFailed = [] ∧
    webRequestEvents false true true .transportFailed = [] ∧
    webRequestEvents false true true .unauthorized = [] :=
  ⟨null_error_callback_silent .cancelled true true rfl,
   null_error_callback_silent (.completed true 404) true true (by decide),
   null_error_callback_silent (.completed false 200) true true (by decide),
   null_error_callback_silent .createFailed true true rfl,
   null_error_callback_silent .transportFailed true true rfl,
   null_error_callback_silent .unauthorized true true rfl⟩

/-- C6 witness: the roundtrip theorem evaluated on a concrete state with
the sdk installed and two installations. -/
theorem save_load_roundtrip_witness :
    saveData ⟨true, true, true, true, true⟩
        ⟨"D:/data", "S:/sdk", true, false, [⟨"C:/A", "a.exe"⟩, ⟨"C:/B", "b.exe"⟩]⟩ =
      (some (savedJson
        ⟨"D:/data", "S:/sdk", true, false, [⟨"C:/A", "a.exe"⟩, ⟨"C:/B", "b.exe"⟩]⟩),
       Except.ok ()) ∧
    loadData ⟨some "D:/data", some (Except.ok (savedJson
        ⟨"D:/data", "S:/sdk", true, false, [⟨"C:/A", "a.exe"⟩, ⟨"C:/B", "b.exe"⟩]⟩))⟩ =
      (⟨"D:/data", "S:/sdk", true, true, [⟨"C:/A", "a.exe"⟩, ⟨"C:/B", "b.exe"⟩]⟩,
       Except.ok ()) := by
  have h := save_load_roundtrip
    ⟨"D:/data", "S:/sdk", true, false, [⟨"C:/A", "a.exe"⟩, ⟨"C:/B", "b.exe"⟩]⟩
    (by
      refine List.Pairwise.cons ?_ (List.pairwise_singleton _ _)
      intro b hb
      simp only [List.mem_singleton] at hb
      subst hb
      decide)
  exact ⟨h.1, by simpa using h.2⟩
